import Mathlib

/-!
Verification of the seedlist-discovery resolution algorithm (resolve-mongodb-srv).

The definitions below are a shallow embedding of `src/index.ts`.  Strings are
modelled as Lean `String`s (with label manipulation performed on `List Char`),
the injected DNS capability as a pair of pure functions returning `Except`,
JavaScript numbers reached by `+string` coercion as `JsNum` (integer or NaN;
fractional values are not produced by the inputs modelled here), and
`Math.random()` draws as a pre-supplied list of naturals, where the draw used
with upper bound `r` is taken modulo `r` (matching `Math.floor(Math.random()*r)`,
which always lies in `[0, r)`).

The `whatwg-url` library is an external collaborator of the repository; the
small fragment of its behaviour that the source relies on (URLSearchParams
get/has/set/delete/iteration order and the query-string parse used for TXT
records, minus percent-decoding) is modelled by `getParam`, `hasKey`,
`setParam`, `deleteParam` and `parseSearchParams` below.
-/

/-- One `Math.random` draw mapped into `[0, r)`: models `Math.floor(Math.random() * r)`. -/
def randomIndexOf (u r : Nat) : Nat := u % r

/-- Embeds `srvAddress.endsWith('.') ? srvAddress.slice(0, -1) : srvAddress`
(trailing-dot normalization in `matchesParentDomain`, src/index.ts:18-19). -/
def stripTrailingDot (s : List Char) : List Char :=
  if s.getLast? = some '.' then s.dropLast else s

/-- Helper for the regex `/^.*?\./` replacement: the characters after the first
dot.  Only used under a `'.' ∈ s` guard, mirroring that the regex matches
exactly when the string contains a dot. -/
def afterFirstDot : List Char → List Char
  | [] => []
  | c :: cs => if c = '.' then cs else afterFirstDot cs

/-- Embeds `.replace(/^.*?\./, '')` (src/index.ts:17-19): the lazy regex removes
everything up to and including the first dot; a dot-free string is unchanged. -/
def dropFirstLabel (s : List Char) : List Char :=
  if '.' ∈ s then afterFirstDot s else s

/-- Embeds `matchesParentDomain` (src/index.ts:16-21) on character lists. -/
def matchesParentDomainL (srvAddress parentDomain : List Char) : Bool :=
  let srv := '.' :: dropFirstLabel (stripTrailingDot srvAddress)
  let parent := '.' :: dropFirstLabel (stripTrailingDot parentDomain)
  List.isSuffixOf parent srv

/-- `matchesParentDomain` (src/index.ts:16-21) on strings. -/
def matchesParentDomain (srvAddress parentDomain : String) : Bool :=
  matchesParentDomainL srvAddress.data parentDomain.data

/-- Modelled from the spec (§4.2 step 3): removing the first `.`-delimited
segment, phrased independently of the source's regex formulation. -/
def dropFirstLabelSpec (s : List Char) : List Char :=
  if '.' ∈ s then (s.dropWhile (fun c => c != '.')).drop 1 else s

/-- Modelled from the spec (§4.2 step 3): strip one leading label (the first
`.`-delimited segment) from both sides, trailing dots normalized away first,
then require the stripped target to end, `.`-anchored, with the stripped
lookup domain (either equal to it, or ending in `"." ++` it). -/
def matchesParentDomainSpec (srvAddress parentDomain : String) : Bool :=
  let t := dropFirstLabelSpec (stripTrailingDot srvAddress.data)
  let p := dropFirstLabelSpec (stripTrailingDot parentDomain.data)
  t == p || List.isSuffixOf ('.' :: p) t

/-- The `Address` callback type of the injected resolver (src/index.ts:6).
`port` is optional because the source guards it with `r.port ?? 27017`. -/
structure Address where
  name : String
  port : Option Nat
deriving DecidableEq

/-- Embeds `r.name + ((r.port ?? 27017) === 27017 ? '' : `:${r.port}`)`
(src/index.ts:35).  In the else-branch `r.port` is necessarily present and
equal to `r.port ?? 27017`, so the defaulted value is rendered. -/
def formatAddress (r : Address) : String :=
  r.name ++ (if r.port.getD 27017 = 27017 then "" else ":" ++ toString (r.port.getD 27017))

/-- An error thrown by the underlying DNS resolver; `code` models `err.code`
(absent/`undefined` is `none`). -/
structure DnsError where
  code : Option String
deriving DecidableEq

/-- Failure channel of the resolution: `MongoParseError`, a plain `Error`
(the port check), or a propagated DNS error. -/
inductive ResolveError where
  | mongoParseError (message : String)
  | genericError (message : String)
  | dnsError (e : DnsError)
deriving DecidableEq

/-- The injected DNS capability (src/index.ts:7-12), with the callback API
promisified into `Except`.  An `undefined` SRV address list is modelled as
`[]` (both fail the same `!addresses?.length` check in the source). -/
structure DnsApi where
  resolveSrv : String → Except DnsError (List Address)
  resolveTxt : String → Except DnsError (List (List String))

/-- The post-lookup body of `resolveDnsSrvRecord` (src/index.ts:25-35):
empty-result check, per-target parent-domain validation, port formatting. -/
def validateSrvAddresses (addresses : List Address) (lookupAddress : String) :
    Except ResolveError (List String) :=
  if addresses.isEmpty then
    .error (.mongoParseError "No addresses found at host")
  else if addresses.all (fun r => matchesParentDomain r.name lookupAddress) then
    .ok (addresses.map formatAddress)
  else
    .error (.mongoParseError "Server record does not share hostname with parent URI")

/-- Embeds `resolveDnsSrvRecord` (src/index.ts:23-36). -/
def resolveDnsSrvRecord (dns : DnsApi) (lookupAddress srvServiceName : String) :
    Except ResolveError (List String) :=
  match dns.resolveSrv ("_" ++ srvServiceName ++ "._tcp." ++ lookupAddress) with
  | .error e => .error (.dnsError e)
  | .ok addresses => validateSrvAddresses addresses lookupAddress

/-- Embeds `err?.code && (err.code !== 'ENODATA' && err.code !== 'ENOTFOUND')`
(src/index.ts:43): the TXT lookup error is rethrown exactly when this holds.
JavaScript string truthiness makes an absent or empty `code` falsy. -/
def txtErrorPropagates (e : DnsError) : Bool :=
  match e.code with
  | none => false
  | some c => c != "" && (c != "ENODATA" && c != "ENOTFOUND")

/-- `ALLOWED_TXT_OPTIONS` (src/index.ts:14). -/
def ALLOWED_TXT_OPTIONS : List String := ["authSource", "replicaSet", "loadBalanced"]

/-- URLSearchParams `.get`: value of the first pair with the given key. -/
def getParam : List (String × String) → String → Option String
  | [], _ => none
  | p :: rest, k => if p.1 = k then some p.2 else getParam rest k

/-- URLSearchParams `.has`. -/
def hasKey (ps : List (String × String)) (k : String) : Bool :=
  (getParam ps k).isSome

/-- URLSearchParams `.delete`: remove every pair with the given key. -/
def deleteParam : List (String × String) → String → List (String × String)
  | [], _ => []
  | p :: rest, k => if p.1 = k then deleteParam rest k else p :: deleteParam rest k

/-- Helper for `setParam`: overwrite the first pair with the given key and
remove later pairs with that key (the whatwg `set` algorithm). -/
def setFirstParam : List (String × String) → String → String → List (String × String)
  | [], _, _ => []
  | p :: rest, k, v => if p.1 = k then (k, v) :: deleteParam rest k else p :: setFirstParam rest k v

/-- URLSearchParams `.set`: update-in-place when present, append otherwise. -/
def setParam (ps : List (String × String)) (k v : String) : List (String × String) :=
  if hasKey ps k then setFirstParam ps k v else ps ++ [(k, v)]

/-- Split a character list on a separator (used for the `&`-splitting of the
urlencoded parse). -/
def splitOnChar (sep : Char) : List Char → List (List Char)
  | [] => [[]]
  | c :: cs =>
    if c = sep then [] :: splitOnChar sep cs
    else
      match splitOnChar sep cs with
      | [] => [[c]]
      | piece :: rest => (c :: piece) :: rest

/-- One `name=value` piece of the urlencoded parse: split at the first `=`
(no `=` means an empty value). -/
def parsePair (piece : List Char) : String × String :=
  (String.mk (piece.takeWhile (fun c => c != '=')),
   String.mk ((piece.dropWhile (fun c => c != '=')).drop 1))

/-- Models `new URLSearchParams(string)` from whatwg-url as used by the source:
strip one leading `?`, split on `&`, skip empty pieces, split each piece at its
first `=`.  Percent- and `+`-decoding are not modelled (no claim depends on
them). -/
def parseSearchParams (init : String) : List (String × String) :=
  let chars :=
    match init.data with
    | '?' :: rest => rest
    | l => l
  ((splitOnChar '&' chars).filter (fun piece => piece != [])).map parsePair

/-- Embeds the validation half of `resolveDnsTxtRecord` (src/index.ts:55-74):
allow-list check over all parsed keys, empty-value check and `loadBalanced`
check over the `.get` (first) values. -/
def validateTxtOptions (txtRecordOptions : List (String × String)) :
    Except ResolveError (List (String × String)) :=
  if (txtRecordOptions.map Prod.fst).any (fun key => !(ALLOWED_TXT_OPTIONS.contains key)) then
    .error (.mongoParseError ("Text record must only set " ++ String.intercalate ", " ALLOWED_TXT_OPTIONS))
  else
    let source := getParam txtRecordOptions "authSource"
    let replicaSet := getParam txtRecordOptions "replicaSet"
    let loadBalanced := getParam txtRecordOptions "loadBalanced"
    if source = some "" ∨ replicaSet = some "" ∨ loadBalanced = some "" then
      .error (.mongoParseError "Cannot have empty URI params in DNS TXT Record")
    else if loadBalanced ≠ none ∧ loadBalanced ≠ some "true" ∧ loadBalanced ≠ some "false" then
      .error (.mongoParseError ("DNS TXT Record contains invalid value " ++ loadBalanced.getD ""
        ++ " for loadBalanced option (allowed: true, false)"))
    else
      .ok txtRecordOptions

/-- Embeds the record-counting half of `resolveDnsTxtRecord`
(src/index.ts:48-53): `none` is an absorbed lookup failure (`records` stays
`undefined`), more than one record is a hard error, and the option string is
`records?.[0]?.join('') ?? ''`. -/
def processTxtRecords (records : Option (List (List String))) :
    Except ResolveError (List (String × String)) :=
  if 1 < (records.getD []).length then
    .error (.mongoParseError "Multiple text records not allowed")
  else
    validateTxtOptions (parseSearchParams (String.join ((records.getD []).headD [])))

/-- Embeds `resolveDnsTxtRecord` (src/index.ts:38-76). -/
def resolveDnsTxtRecord (dns : DnsApi) (lookupAddress : String) :
    Except ResolveError (List (String × String)) :=
  match dns.resolveTxt lookupAddress with
  | .error e =>
    if txtErrorPropagates e then .error (.dnsError e) else processTxtRecords none
  | .ok rs => processTxtRecords (some rs)

/-- A JavaScript number as produced by `+string` on the inputs relevant here:
an integer or NaN.  `jsStringToNum` models `+s` for optional-minus decimal
integer strings; every other string (the non-numeric case) is NaN.  Fractional,
exponent, hex and whitespace forms are not modelled. -/
inductive JsNum where
  | nan
  | int (n : Int)
deriving DecidableEq

/-- Decimal digits to a natural number. -/
def digitsToNat (l : List Char) : Nat :=
  l.foldl (fun n c => n * 10 + (c.toNat - 48)) 0

/-- Models the `+string` coercion (see `JsNum`). -/
def jsStringToNum (s : String) : JsNum :=
  match s.data with
  | [] => .int 0
  | '-' :: rest => if !rest.isEmpty && rest.all Char.isDigit then .int (-(digitsToNat rest : Int)) else .nan
  | l => if l.all Char.isDigit then .int (digitsToNat l) else .nan

/-- Models JavaScript `value || fallback` for `string | null` values: `null`
and the empty string are falsy. -/
def jsOrDefault (value : Option String) (fallback : String) : String :=
  match value with
  | none => fallback
  | some s => if s = "" then fallback else s

/-- The two indexed assignments of the shuffle body (src/index.ts:146-148):
swap positions `i` and `j` when both are in bounds. -/
def listSwap {α : Type} (items : List α) (i j : Nat) : List α :=
  match items[i]?, items[j]? with
  | some a, some b => (items.set i b).set j a
  | _, _ => items

/-- The `while (remainingItemsToShuffle > lowerBound)` loop of `shuffle`
(src/index.ts:140-149).  `rand` supplies the `Math.random` draws; the list is
returned unchanged if it runs out (a sufficiently long `rand` is always
assumed by evaluations, and the loop runs at most `items.length` times). -/
def shuffleLoop {α : Type} (rand : List Nat) (items : List α) (remaining : Nat) (lowerBound : Int) : List α :=
  if (remaining : Int) > lowerBound then
    match rand with
    | [] => items
    | u :: rest =>
      shuffleLoop rest (listSwap items (remaining - 1) (randomIndexOf u remaining)) (remaining - 1) lowerBound
  else items

/-- Embeds `shuffle` (src/index.ts:132-151).  `limit` is an `Int` because the
source passes the raw `srvMaxHosts` number, which may be negative.  The JS
test `limit % items.length === 0` is true exactly when `items.length` is
nonzero and divides `limit` (a `0` divisor gives NaN, and `-0 === 0` holds),
which is what the `Int.emod`-based test below computes; `slice(lowerBound)` is
`drop`, the `lowerBound` being nonnegative whenever that branch is reached. -/
def shuffle {α : Type} (rand : List Nat) (sequence : List α) (limit0 : Int) : List α :=
  let items := sequence
  let limit := min limit0 (items.length : Int)
  let remIsZero : Bool := items.length != 0 && limit % (items.length : Int) == 0
  let lowerBound : Int := if remIsZero then 1 else (items.length : Int) - limit
  let shuffled := shuffleLoop rand items items.length lowerBound
  if remIsZero then shuffled else shuffled.drop lowerBound.toNat

/-- The host-limiting step of `resolveMongodbSrv` (src/index.ts:100-103):
`if (srvMaxHosts && srvMaxHosts < srvResult.length)` — `0` and NaN are falsy —
replace the list with `shuffle(srvResult, srvMaxHosts)`. -/
def limitHosts {α : Type} (rand : List Nat) (srvMaxHosts : JsNum) (srvResult : List α) : List α :=
  match srvMaxHosts with
  | .nan => srvResult
  | .int n => if n ≠ 0 ∧ n < (srvResult.length : Int) then shuffle rand srvResult n else srvResult

/-- The fragment of a parsed whatwg `URL` object that the source reads and
writes: protocol, credentials, port (empty string when absent), hostname,
pathname and the search-parameter list. -/
structure URLModel where
  protocol : String
  username : String
  password : String
  port : String
  hostname : String
  pathname : String
  searchParams : List (String × String)
deriving DecidableEq

/-- The TXT-merge loop of `resolveMongodbSrv` (src/index.ts:110-114): for each
TXT pair whose key the URL params do not already have, `set` it. -/
def mergeTxtOptions (urlParams txt : List (String × String)) : List (String × String) :=
  txt.foldl (fun ps kv => if hasKey ps kv.1 then ps else setParam ps kv.1 kv.2) urlParams

/-- The TLS default injection of `resolveMongodbSrv` (src/index.ts:115-117). -/
def injectTlsDefault (ps : List (String × String)) : List (String × String) :=
  if hasKey ps "tls" ∨ hasKey ps "ssl" then ps else setParam ps "tls" "true"

/-- The URL rewriting of `resolveMongodbSrv` (src/index.ts:105-119): protocol
and hostname rewrite, empty-path default, TXT merge, TLS injection, removal of
the resolution directives. -/
def finalizeUrl (url : URLModel) (txtResult : List (String × String)) : URLModel :=
  let u := { url with
    protocol := "mongodb:"
    hostname := "__DUMMY_HOSTNAME__"
    pathname := if url.pathname = "" then "/" else url.pathname }
  let ps := mergeTxtOptions u.searchParams txtResult
  let ps := injectTlsDefault ps
  let ps := deleteParam ps "srvServiceName"
  let ps := deleteParam ps "srvMaxHosts"
  { u with searchParams := ps }

/-- The discovery-form body of `resolveMongodbSrv` (src/index.ts:87-121),
returning the limited host list together with the rewritten URL (their final
serialization is `serializeResolved`). -/
def resolveSrvUrl (dns : DnsApi) (rand : List Nat) (url : URLModel) :
    Except ResolveError (List String × URLModel) :=
  if url.port ≠ "" then .error (.genericError "mongodb+srv:// URL cannot have port number")
  else
    let lookupAddress := url.hostname
    let srvServiceName := jsOrDefault (getParam url.searchParams "srvServiceName") "mongodb"
    let srvMaxHosts := jsStringToNum (jsOrDefault (getParam url.searchParams "srvMaxHosts") "0")
    match resolveDnsSrvRecord dns lookupAddress srvServiceName with
    | .error e => .error e
    | .ok srvResult =>
      match resolveDnsTxtRecord dns lookupAddress with
      | .error e => .error e
      | .ok txtResult =>
        .ok (limitHosts rand srvMaxHosts srvResult, finalizeUrl url txtResult)

/-- Models the whatwg `URL` serializer on the fields of `URLModel`. -/
def urlToString (u : URLModel) : String :=
  u.protocol ++ "//"
    ++ (if u.username = "" ∧ u.password = "" then ""
        else u.username ++ (if u.password = "" then "" else ":" ++ u.password) ++ "@")
    ++ u.hostname ++ (if u.port = "" then "" else ":" ++ u.port)
    ++ u.pathname
    ++ (if u.searchParams.isEmpty then ""
        else "?" ++ String.intercalate "&" (u.searchParams.map (fun p => p.1 ++ "=" ++ p.2)))

/-- JavaScript `String.prototype.replace` with a string pattern: replace the
first occurrence only. -/
def replaceFirst : List Char → List Char → List Char → List Char
  | s, pat, rep =>
    if pat.isPrefixOf s then rep ++ s.drop pat.length
    else
      match s with
      | [] => []
      | c :: cs => c :: replaceFirst cs pat rep

/-- `url.toString().replace('__DUMMY_HOSTNAME__', srvResult.join(','))`
(src/index.ts:121). -/
def serializeResolved (url : URLModel) (srvResult : List String) : String :=
  String.mk (replaceFirst (urlToString url).data "__DUMMY_HOSTNAME__".data
    (String.intercalate "," srvResult).data)

/-- JavaScript `String.prototype.startsWith`. -/
def jsStartsWith (s p : String) : Bool := p.data.isPrefixOf s.data

/-- Embeds `resolveMongodbSrv` (src/index.ts:78-122).  `parseUrl` is the
external whatwg `new URL(input)` parse (`none` models a parse throw); it is
only consulted for discovery-form inputs. -/
def resolveMongodbSrv (input : String) (parseUrl : String → Option URLModel)
    (dns : DnsApi) (rand : List Nat) : Except ResolveError String :=
  if jsStartsWith input "mongodb://" then .ok input
  else if !(jsStartsWith input "mongodb+srv://") then .error (.mongoParseError "Unknown URL scheme")
  else
    match parseUrl input with
    | none => .error (.genericError "Invalid URL")
    | some url =>
      match resolveSrvUrl dns rand url with
      | .error e => .error e
      | .ok r => .ok (serializeResolved r.2 r.1)

/-! ## Lemmas about the URLSearchParams model -/

theorem getParam_append_left (ps qs : List (String × String)) (k : String)
    (h : (getParam ps k).isSome = true) : getParam (ps ++ qs) k = getParam ps k := by
  induction ps with
  | nil => simp [getParam] at h
  | cons p rest ih =>
    by_cases hk : p.1 = k
    · simp [getParam, hk]
    · simp only [getParam, hk, if_neg, List.cons_append] at h ⊢
      exact ih h

theorem getParam_append_right (ps qs : List (String × String)) (k : String)
    (h : getParam ps k = none) : getParam (ps ++ qs) k = getParam qs k := by
  induction ps with
  | nil => simp
  | cons p rest ih =>
    by_cases hk : p.1 = k
    · simp [getParam, hk] at h
    · simp only [getParam, hk, if_neg, List.cons_append] at h ⊢
      exact ih h

theorem getParam_deleteParam_ne (ps : List (String × String)) (k k' : String)
    (h : k ≠ k') : getParam (deleteParam ps k') k = getParam ps k := by
  induction ps with
  | nil => simp [deleteParam]
  | cons p rest ih =>
    by_cases hk : p.1 = k'
    · rw [deleteParam, if_pos hk, ih, getParam, if_neg (by rw [hk]; exact Ne.symm h)]
    · rw [deleteParam, if_neg hk, getParam, getParam]
      by_cases hpk : p.1 = k
      · rw [if_pos hpk, if_pos hpk]
      · rw [if_neg hpk, if_neg hpk, ih]

theorem getParam_deleteParam_self (ps : List (String × String)) (k : String) :
    getParam (deleteParam ps k) k = none := by
  induction ps with
  | nil => simp [deleteParam, getParam]
  | cons p rest ih =>
    by_cases hk : p.1 = k
    · simp [deleteParam, hk, ih]
    · simp [deleteParam, hk, getParam, ih]

theorem setParam_of_not_hasKey (ps : List (String × String)) (k v : String)
    (h : hasKey ps k = false) : setParam ps k v = ps ++ [(k, v)] := by
  simp [setParam, h]

theorem getParam_mergeTxtOptions (txt : List (String × String)) :
    ∀ ps k, (getParam ps k).isSome = true →
      getParam (mergeTxtOptions ps txt) k = getParam ps k := by
  induction txt with
  | nil => intro ps k _; rfl
  | cons kv rest ih =>
    intro ps k h
    show getParam (mergeTxtOptions (if hasKey ps kv.1 then ps else setParam ps kv.1 kv.2) rest) k
      = getParam ps k
    by_cases hk : hasKey ps kv.1
    · rw [if_pos hk]; exact ih ps k h
    · rw [if_neg hk, setParam_of_not_hasKey ps kv.1 kv.2 (by simpa using hk)]
      rw [ih _ k (by rw [getParam_append_left ps _ k h]; exact h)]
      exact getParam_append_left ps _ k h

theorem getParam_injectTlsDefault (ps : List (String × String)) (k : String)
    (h : (getParam ps k).isSome = true) :
    getParam (injectTlsDefault ps) k = getParam ps k := by
  unfold injectTlsDefault
  by_cases htls : hasKey ps "tls" ∨ hasKey ps "ssl"
  · rw [if_pos htls]
  · rw [if_neg htls]
    rw [setParam_of_not_hasKey ps "tls" "true"
      (Bool.eq_false_iff.mpr fun ht => htls (Or.inl ht))]
    exact getParam_append_left ps _ k h

theorem hasKey_mem_keys (ps : List (String × String)) (k : String)
    (h : (getParam ps k).isSome = true) : k ∈ ps.map Prod.fst := by
  induction ps with
  | nil => simp [getParam] at h
  | cons p rest ih =>
    by_cases hk : p.1 = k
    · simp [hk]
    · simp only [getParam, hk, if_neg] at h
      simp [ih h]

theorem validateTxtOptions_ok (opts txt : List (String × String))
    (h : validateTxtOptions opts = .ok txt) :
    txt = opts ∧
    ((opts.map Prod.fst).any (fun key => !(ALLOWED_TXT_OPTIONS.contains key))) = false := by
  simp only [validateTxtOptions] at h
  by_cases h1 : ((opts.map Prod.fst).any (fun key => !(ALLOWED_TXT_OPTIONS.contains key))) = true
  · rw [if_pos h1] at h; exact absurd h (by simp)
  · rw [if_neg h1] at h
    refine ⟨?_, by simpa using h1⟩
    by_cases h2 : getParam opts "authSource" = some "" ∨ getParam opts "replicaSet" = some ""
        ∨ getParam opts "loadBalanced" = some ""
    · rw [if_pos h2] at h; exact absurd h (by simp)
    · rw [if_neg h2] at h
      by_cases h3 : getParam opts "loadBalanced" ≠ none ∧ getParam opts "loadBalanced" ≠ some "true"
          ∧ getParam opts "loadBalanced" ≠ some "false"
      · rw [if_pos h3] at h; exact absurd h (by simp)
      · rw [if_neg h3] at h
        exact (Except.ok.inj h).symm

theorem validateTxtOptions_ok_key_allowed (opts txt : List (String × String)) (k : String)
    (h : validateTxtOptions opts = .ok txt) (hk : (getParam txt k).isSome = true) :
    k ∈ ALLOWED_TXT_OPTIONS := by
  obtain ⟨rfl, hall⟩ := validateTxtOptions_ok opts txt h
  have hmem := hasKey_mem_keys txt k hk
  rw [List.any_eq_false] at hall
  have := hall k hmem
  simpa using this

theorem processTxtRecords_ok_key_allowed (records : Option (List (List String)))
    (txt : List (String × String)) (k : String)
    (h : processTxtRecords records = .ok txt) (hk : (getParam txt k).isSome = true) :
    k ∈ ALLOWED_TXT_OPTIONS := by
  unfold processTxtRecords at h
  split at h
  · exact absurd h (by simp)
  · exact validateTxtOptions_ok_key_allowed _ txt k h hk

theorem finalizeUrl_searchParams (url : URLModel) (txt : List (String × String)) :
    (finalizeUrl url txt).searchParams =
      deleteParam (deleteParam (injectTlsDefault (mergeTxtOptions url.searchParams txt))
        "srvServiceName") "srvMaxHosts" := rfl

/-- C4: for every resolution that succeeds, and every query key present in
both the original URL's options and the (validated) TXT option set, the output
carries the URL's value — the TXT set only fills keys absent from the URL —
and `tls=true` is injected (appended) exactly when neither `tls` nor `ssl` is
present after that merge, in which case the output's `tls` value is `"true"`. -/
theorem c4_url_precedence_and_tls_injection
    (url : URLModel) (records : Option (List (List String))) (txt : List (String × String))
    (htxt : processTxtRecords records = .ok txt) (k : String)
    (hurl : (getParam url.searchParams k).isSome = true)
    (hk : (getParam txt k).isSome = true) :
    getParam (finalizeUrl url txt).searchParams k = getParam url.searchParams k ∧
    ((¬ (hasKey (mergeTxtOptions url.searchParams txt) "tls" = true ∨
         hasKey (mergeTxtOptions url.searchParams txt) "ssl" = true)) ↔
      injectTlsDefault (mergeTxtOptions url.searchParams txt)
        = mergeTxtOptions url.searchParams txt ++ [("tls", "true")]) ∧
    ((¬ (hasKey (mergeTxtOptions url.searchParams txt) "tls" = true ∨
         hasKey (mergeTxtOptions url.searchParams txt) "ssl" = true)) →
      getParam (finalizeUrl url txt).searchParams "tls" = some "true") := by
  have kAllowed : k = "authSource" ∨ k = "replicaSet" ∨ k = "loadBalanced" := by
    simpa [ALLOWED_TXT_OPTIONS] using processTxtRecords_ok_key_allowed records txt k htxt hk
  have hne1 : k ≠ "srvServiceName" := by
    rcases kAllowed with h | h | h <;> (subst h; decide)
  have hne2 : k ≠ "srvMaxHosts" := by
    rcases kAllowed with h | h | h <;> (subst h; decide)
  have hmerge : getParam (mergeTxtOptions url.searchParams txt) k = getParam url.searchParams k :=
    getParam_mergeTxtOptions txt url.searchParams k hurl
  have hmergeSome : (getParam (mergeTxtOptions url.searchParams txt) k).isSome = true := by
    rw [hmerge]; exact hurl
  refine ⟨?_, ⟨?_, ?_⟩, ?_⟩
  · rw [finalizeUrl_searchParams, getParam_deleteParam_ne _ k "srvMaxHosts" hne2,
      getParam_deleteParam_ne _ k "srvServiceName" hne1,
      getParam_injectTlsDefault _ k hmergeSome, hmerge]
  · intro habs
    unfold injectTlsDefault
    rw [if_neg habs, setParam_of_not_hasKey _ "tls" "true"
      (Bool.eq_false_iff.mpr fun ht => habs (Or.inl ht))]
  · intro heq habs
    have hlen := congrArg List.length heq
    rw [injectTlsDefault, if_pos habs] at hlen
    simp at hlen
  · intro habs
    have htlsnone : getParam (mergeTxtOptions url.searchParams txt) "tls" = none := by
      have : ¬ (getParam (mergeTxtOptions url.searchParams txt) "tls").isSome = true :=
        fun ht => habs (Or.inl ht)
      exact Option.not_isSome_iff_eq_none.mp this
    have hinj : injectTlsDefault (mergeTxtOptions url.searchParams txt)
        = mergeTxtOptions url.searchParams txt ++ [("tls", "true")] := by
      unfold injectTlsDefault
      rw [if_neg habs, setParam_of_not_hasKey _ "tls" "true"
        (Bool.eq_false_iff.mpr fun ht => habs (Or.inl ht))]
    rw [finalizeUrl_searchParams,
      getParam_deleteParam_ne _ "tls" "srvMaxHosts" (by decide),
      getParam_deleteParam_ne _ "tls" "srvServiceName" (by decide), hinj,
      getParam_append_right _ _ "tls" htlsnone]
    rfl

theorem c4_witness :
    getParam (finalizeUrl
      { protocol := "mongodb+srv:", username := "", password := "", port := "",
        hostname := "server.example.com", pathname := "",
        searchParams := [("authSource", "test")] }
      [("authSource", "admin")]).searchParams "authSource" = some "test" :=
  (c4_url_precedence_and_tls_injection
    { protocol := "mongodb+srv:", username := "", password := "", port := "",
      hostname := "server.example.com", pathname := "",
      searchParams := [("authSource", "test")] }
    (some [["authSource=admin"]]) [("authSource", "admin")] rfl
    "authSource" (by decide) (by decide)).1.trans (by decide)

/-! ## Lemmas about the parent-domain check -/

theorem afterFirstDot_dropWhile (s : List Char) :
    afterFirstDot s = (s.dropWhile (fun c => c != '.')).drop 1 := by
  induction s with
  | nil => rfl
  | cons c cs ih =>
    by_cases h : c = '.'
    · subst h; simp [afterFirstDot, List.dropWhile]
    · have hb : (c != '.') = true := by simpa using h
      simp [afterFirstDot, h, List.dropWhile, hb, ih]

theorem dropFirstLabel_eq_spec (s : List Char) :
    dropFirstLabel s = dropFirstLabelSpec s := by
  unfold dropFirstLabel dropFirstLabelSpec
  by_cases h : '.' ∈ s
  · rw [if_pos h, if_pos h, afterFirstDot_dropWhile]
  · rw [if_neg h, if_neg h]

theorem isSuffixOf_dot_cons (p t : List Char) :
    List.isSuffixOf ('.' :: p) ('.' :: t) = (t == p || List.isSuffixOf ('.' :: p) t) := by
  rw [Bool.eq_iff_iff]
  simp only [List.isSuffixOf_iff_suffix, Bool.or_eq_true, beq_iff_eq, List.suffix_cons_iff,
    List.cons.injEq, true_and]
  tauto

theorem afterFirstDot_append (a b : List Char) (ha : '.' ∉ a) :
    afterFirstDot (a ++ '.' :: b) = b := by
  induction a with
  | nil => simp [afterFirstDot]
  | cons c a' ih =>
    have hc : c ≠ '.' := fun h => ha (h ▸ List.mem_cons_self c a')
    simp only [List.cons_append, afterFirstDot, if_neg hc]
    exact ih fun h => ha (List.mem_cons_of_mem c h)

theorem stripTrailingDot_dotfree_tail (x b : List Char) (hb : '.' ∉ b) (hbne : b ≠ []) :
    stripTrailingDot (x ++ '.' :: b) = x ++ '.' :: b := by
  unfold stripTrailingDot
  rw [if_neg]
  rw [List.getLast?_append]
  have hcons : ('.' :: b).getLast? = some (('.' :: b).getLast (by simp)) :=
    List.getLast?_eq_getLast _ (by simp)
  rw [hcons]
  intro heq
  have hsome : some (('.' :: b).getLast (by simp)) = some '.' := by
    simpa [Option.or] using heq
  have hmem : ('.' :: b).getLast (by simp) ∈ '.' :: b := List.getLast_mem _
  rw [Option.some.injEq] at hsome
  rw [hsome] at hmem
  rcases List.mem_cons.mp hmem with _ | hmem'
  · have : '.' :: b ≠ [] := by simp
    have hlast : ('.' :: b).getLast? = b.getLast? := by
      cases b with
      | nil => exact absurd rfl hbne
      | cons y ys => rw [List.getLast?_cons, List.getLast?_cons]; rfl
    have : b.getLast? = some '.' := by
      rw [← hlast, hcons, hsome]
    have : '.' ∈ b := by
      have hmemLast : '.' ∈ b.getLast? := by rw [this]; rfl
      obtain ⟨hne', hl⟩ := List.mem_getLast?_eq_getLast hmemLast
      exact hl ▸ List.getLast_mem hne'
    exact hb this
  · exact hb hmem'

theorem suffix_dot_afterFirstDot (b : List Char) :
    ∀ t : List Char, ('.' :: b) <:+ ('.' :: afterFirstDot (t ++ '.' :: b)) := by
  intro t
  induction t with
  | nil => simp [afterFirstDot]
  | cons c t' ih =>
    by_cases hc : c = '.'
    · subst hc
      have harw : afterFirstDot (('.' :: t') ++ '.' :: b) = t' ++ '.' :: b := by
        simp [afterFirstDot]
      rw [harw]
      have hsplit : ('.' : Char) :: (t' ++ '.' :: b) = ('.' :: t') ++ ('.' :: b) := by simp
      rw [hsplit]
      exact List.suffix_append _ _
    · simpa [afterFirstDot, hc] using ih

theorem matchesParentDomain_eq_spec (t p : String) :
    matchesParentDomain t p = matchesParentDomainSpec t p := by
  simp only [matchesParentDomain, matchesParentDomainL, matchesParentDomainSpec,
    ← dropFirstLabel_eq_spec]
  exact isSuffixOf_dot_cons _ _

theorem validateSrvAddresses_error_of_mismatch (addrs : List Address) (lookup : String)
    (hne : addrs ≠ []) (hbad : ∃ r ∈ addrs, matchesParentDomain r.name lookup = false) :
    validateSrvAddresses addrs lookup =
      .error (.mongoParseError "Server record does not share hostname with parent URI") := by
  unfold validateSrvAddresses
  rw [if_neg (by simpa using hne), if_neg]
  intro hall
  obtain ⟨r, hr, hf⟩ := hbad
  have := List.all_eq_true.mp hall r hr
  rw [hf] at this
  exact Bool.false_ne_true this

theorem validateSrvAddresses_ok_all (addrs : List Address) (lookup : String) (out : List String)
    (hok : validateSrvAddresses addrs lookup = .ok out) :
    ∀ r ∈ addrs, matchesParentDomain r.name lookup = true := by
  unfold validateSrvAddresses at hok
  by_cases h1 : addrs.isEmpty = true
  · rw [if_pos h1] at hok; exact absurd hok (by simp)
  · rw [if_neg h1] at hok
    by_cases h2 : addrs.all (fun r => matchesParentDomain r.name lookup) = true
    · exact List.all_eq_true.mp h2
    · rw [if_neg h2] at hok; exact absurd hok (by simp)

theorem validateSrvAddresses_ok_of (addrs : List Address) (lookup : String)
    (hne : addrs ≠ []) (hall : addrs.all (fun r => matchesParentDomain r.name lookup) = true) :
    validateSrvAddresses addrs lookup = .ok (addrs.map formatAddress) := by
  unfold validateSrvAddresses
  rw [if_neg (by simpa using hne), if_pos hall]

/-! ## Claims C1 and C2 -/

/-- C1 counterexample: for the two-label lookup domain `example.com`, the SRV
target `asdf.malicious.com` (sharing only the TLD) and the bare parent
`example.com` itself both PASS `matchesParentDomain`, and `resolveDnsSrvRecord`
succeeds instead of aborting with the domain-mismatch error — refuting the
claim that such targets fail the containment check. -/
theorem c1_counterexample :
    matchesParentDomain "asdf.malicious.com" "example.com" = true ∧
    matchesParentDomain "example.com" "example.com" = true ∧
    resolveDnsSrvRecord
      ⟨fun _ => .ok [⟨"asdf.malicious.com", some 27017⟩], fun _ => .ok []⟩
      "example.com" "mongodb" = .ok ["asdf.malicious.com"] :=
  ⟨by decide, by decide, rfl⟩

/-- C1 (amended): for a lookup domain `a.b` with fewer than three labels the
containment check still strips exactly one leading label from each side and is
applied to every target (never skipped), but it thereby degenerates to a
top-level-domain suffix test on `b`: the check accepts every target of the
form `t'.b` — targets sharing only the TLD, and the bare parent itself — so
resolution does not abort on them (the bare TLD-level match is not
prevented). -/
theorem c1_amended_tld_degeneration (a b t t' : List Char)
    (ha : '.' ∉ a) (hb : '.' ∉ b) (hbne : b ≠ []) :
    matchesParentDomainL t (a ++ '.' :: b) =
      List.isSuffixOf ('.' :: b) ('.' :: dropFirstLabel (stripTrailingDot t)) ∧
    matchesParentDomainL (t' ++ '.' :: b) (a ++ '.' :: b) = true := by
  have hparent : dropFirstLabel (stripTrailingDot (a ++ '.' :: b)) = b := by
    rw [stripTrailingDot_dotfree_tail a b hb hbne, dropFirstLabel,
      if_pos (by simp : '.' ∈ a ++ '.' :: b), afterFirstDot_append a b ha]
  constructor
  · show List.isSuffixOf ('.' :: dropFirstLabel (stripTrailingDot (a ++ '.' :: b)))
      ('.' :: dropFirstLabel (stripTrailingDot t)) = _
    rw [hparent]
  · show List.isSuffixOf ('.' :: dropFirstLabel (stripTrailingDot (a ++ '.' :: b)))
      ('.' :: dropFirstLabel (stripTrailingDot (t' ++ '.' :: b))) = true
    rw [hparent, stripTrailingDot_dotfree_tail t' b hb hbne, dropFirstLabel,
      if_pos (by simp : '.' ∈ t' ++ '.' :: b)]
    exact List.isSuffixOf_iff_suffix.mpr (suffix_dot_afterFirstDot b t')

theorem c1_amended_witness :
    matchesParentDomainL ("asdf.malicious".data ++ '.' :: "com".data)
      ("example".data ++ '.' :: "com".data) = true :=
  (c1_amended_tld_degeneration "example".data "com".data [] "asdf.malicious".data
    (by decide) (by decide) (by decide)).2

/-- C2: every returned SRV target is validated by stripping one leading label
from target and lookup domain (trailing dots normalized away first) and
requiring the stripped target to end, `.`-anchored, with the stripped lookup
domain (`matchesParentDomain` agrees everywhere with the spec-worded
`matchesParentDomainSpec`); for lookup domain `server.example.com` the target
`asdf.example.com` is accepted while `asdf.malicious.com` and `example.org`
are rejected with the hard error message, and a successful validation implies
every target passed the check. -/
theorem c2_domain_validation :
    (∀ t p : String, matchesParentDomain t p = matchesParentDomainSpec t p) ∧
    matchesParentDomain "asdf.example.com" "server.example.com" = true ∧
    matchesParentDomain "asdf.malicious.com" "server.example.com" = false ∧
    matchesParentDomain "example.org" "server.example.com" = false ∧
    (∀ (addrs : List Address) (lookup : String), addrs ≠ [] →
      (∃ r ∈ addrs, matchesParentDomain r.name lookup = false) →
      validateSrvAddresses addrs lookup =
        .error (.mongoParseError "Server record does not share hostname with parent URI")) ∧
    (∀ (addrs : List Address) (lookup : String) (out : List String),
      validateSrvAddresses addrs lookup = .ok out →
      ∀ r ∈ addrs, matchesParentDomain r.name lookup = true) :=
  ⟨matchesParentDomain_eq_spec, by decide, by decide, by decide,
   validateSrvAddresses_error_of_mismatch, validateSrvAddresses_ok_all⟩

theorem c2_witness :
    validateSrvAddresses [⟨"asdf.malicious.com", some 27017⟩] "server.example.com" =
      .error (.mongoParseError "Server record does not share hostname with parent URI") :=
  c2_domain_validation.2.2.2.2.1 [⟨"asdf.malicious.com", some 27017⟩] "server.example.com"
    (by decide) ⟨⟨"asdf.malicious.com", some 27017⟩, by decide, by decide⟩

/-! ## Lemmas about the partial Fisher-Yates shuffle -/

theorem cons_set_perm {α : Type} : ∀ (xs : List α) (j : Nat) (x b : α),
    xs[j]? = some b → (b :: xs.set j x).Perm (x :: xs) := by
  intro xs
  induction xs with
  | nil => intro j x b h; simp at h
  | cons y t ih =>
    intro j x b h
    cases j with
    | zero =>
      obtain rfl : y = b := by simpa using h
      exact List.Perm.swap x y t
    | succ k =>
      rw [List.getElem?_cons_succ] at h
      exact ((List.Perm.swap y b _).trans ((ih k x b h).cons y)).trans (List.Perm.swap x y t)

theorem set_set_perm {α : Type} : ∀ (l : List α) (i j : Nat) (a b : α),
    l[i]? = some a → l[j]? = some b → ((l.set i b).set j a).Perm l := by
  intro l
  induction l with
  | nil => intro i j a b h1 _; simp at h1
  | cons x xs ih =>
    intro i j a b h1 h2
    cases i with
    | zero =>
      cases j with
      | zero =>
        obtain rfl : x = a := by simpa using h1
        exact List.Perm.refl _
      | succ k =>
        obtain rfl : x = a := by simpa using h1
        rw [List.getElem?_cons_succ] at h2
        exact cons_set_perm xs k x b h2
    | succ m =>
      cases j with
      | zero =>
        obtain rfl : x = b := by simpa using h2
        rw [List.getElem?_cons_succ] at h1
        exact cons_set_perm xs m x a h1
      | succ k =>
        rw [List.getElem?_cons_succ] at h1 h2
        exact (ih m k a b h1 h2).cons x

theorem listSwap_perm {α : Type} (l : List α) (i j : Nat) : (listSwap l i j).Perm l := by
  unfold listSwap
  split
  · exact set_set_perm l i j _ _ (by assumption) (by assumption)
  · exact List.Perm.refl _

theorem shuffleLoop_perm {α : Type} (rand : List Nat) :
    ∀ (items : List α) (remaining : Nat) (lowerBound : Int),
      (shuffleLoop rand items remaining lowerBound).Perm items := by
  induction rand with
  | nil =>
    intro items remaining lb
    unfold shuffleLoop
    split <;> exact List.Perm.refl _
  | cons u rest ih =>
    intro items remaining lb
    unfold shuffleLoop
    split
    · exact (ih _ _ _).trans (listSwap_perm _ _ _)
    · exact List.Perm.refl _

theorem shuffleLoop_length {α : Type} (rand : List Nat) (items : List α)
    (remaining : Nat) (lowerBound : Int) :
    (shuffleLoop rand items remaining lowerBound).length = items.length :=
  (shuffleLoop_perm rand items remaining lowerBound).length_eq

theorem shuffle_of_pos_lt {α : Type} (rand : List Nat) (items : List α) (n : Int)
    (h0 : 0 < n) (hlt : n < (items.length : Int)) :
    shuffle rand items n =
      (shuffleLoop rand items items.length ((items.length : Int) - n)).drop
        ((items.length : Int) - n).toNat := by
  have hmin : min n (items.length : Int) = n := min_eq_left (le_of_lt hlt)
  have hmod : n % (items.length : Int) = n := Int.emod_eq_of_lt (le_of_lt h0) hlt
  have hne : (n == (0 : Int)) = false := by simpa using (by omega : n ≠ 0)
  simp only [shuffle, hmin, hmod, hne, Bool.and_false, Bool.false_eq_true, if_false]

/-! ## Claims C5 and C9 -/

/-- C5: for a positive `srvMaxHosts` smaller than the host-list length the
output of the limiting step has exactly `srvMaxHosts` entries, drawn without
duplication from the resolved list (a sub-permutation); for `srvMaxHosts = 0`
or at least the list length, the list is returned unmodified in
resolver-returned order. -/
theorem c5_srv_max_hosts_limiting (rand : List Nat) (hosts : List String) (n : Int) :
    (0 < n → n < (hosts.length : Int) →
      (limitHosts rand (.int n) hosts).length = n.toNat ∧
      (limitHosts rand (.int n) hosts).Subperm hosts) ∧
    ((n = 0 ∨ (hosts.length : Int) ≤ n) → limitHosts rand (.int n) hosts = hosts) := by
  constructor
  · intro h0 hlt
    have hguard : n ≠ 0 ∧ n < (hosts.length : Int) := ⟨by omega, hlt⟩
    have hlim : limitHosts rand (.int n) hosts = shuffle rand hosts n := by
      show (if n ≠ 0 ∧ n < (hosts.length : Int) then shuffle rand hosts n else hosts)
        = shuffle rand hosts n
      rw [if_pos hguard]
    rw [hlim, shuffle_of_pos_lt rand hosts n h0 hlt]
    constructor
    · rw [List.length_drop, shuffleLoop_length]
      omega
    · exact ((List.drop_suffix _ _).sublist.subperm).trans
        (shuffleLoop_perm rand hosts hosts.length _).subperm
  · intro h
    show (if n ≠ 0 ∧ n < (hosts.length : Int) then shuffle rand hosts n else hosts) = hosts
    rw [if_neg]
    rintro ⟨h1, h2⟩
    rcases h with rfl | h
    · exact h1 rfl
    · omega

theorem c5_witness :
    (limitHosts [0, 0, 0] (.int 1) ["a", "b", "c"]).length = (1 : Int).toNat ∧
    (limitHosts [0, 0, 0] (.int 1) ["a", "b", "c"]).Subperm ["a", "b", "c"] ∧
    limitHosts [0, 0, 0] (.int 0) ["a", "b", "c"] = ["a", "b", "c"] :=
  ⟨((c5_srv_max_hosts_limiting [0, 0, 0] ["a", "b", "c"] 1).1 (by decide) (by decide)).1,
   ((c5_srv_max_hosts_limiting [0, 0, 0] ["a", "b", "c"] 1).1 (by decide) (by decide)).2,
   (c5_srv_max_hosts_limiting [0, 0, 0] ["a", "b", "c"] 0).2 (Or.inl rfl)⟩

/-- C9 counterexample: a discovery URL with `srvMaxHosts=-2` and an SRV result
of two hosts yields BOTH hosts (shuffled), not an empty host list: in JS,
`-2 % 2` is `-0`, which is `=== 0`, so the shuffle's lower bound is `1` and
the whole shuffled array is returned without slicing. -/
theorem c9_counterexample :
    resolveSrvUrl
      ⟨fun _ => .ok [⟨"asdf.example.com", some 27017⟩, ⟨"meow.example.com", some 27017⟩],
       fun _ => .ok []⟩
      [0, 0]
      { protocol := "mongodb+srv:", username := "", password := "", port := "",
        hostname := "server.example.com", pathname := "",
        searchParams := [("srvMaxHosts", "-2")] } =
    .ok (["meow.example.com", "asdf.example.com"],
      { protocol := "mongodb:", username := "", password := "", port := "",
        hostname := "__DUMMY_HOSTNAME__", pathname := "/",
        searchParams := [("tls", "true")] }) := rfl

/-- C9 (amended): for a negative `srvMaxHosts` and at least two SRV hosts, the
limiting step yields the empty list whenever the host count does not divide
the (negative) value — the slice starts past the end of the array — but when
the host count divides it (e.g. `-2` with 2 hosts), the JS remainder is `-0`,
which compares equal to `0`, and the ENTIRE host list is returned in shuffled
order. -/
theorem c9_amended_negative_srv_max_hosts (rand : List Nat) (hosts : List String) (n : Int)
    (hneg : n < 0) (h2 : 2 ≤ hosts.length) :
    (¬ ((hosts.length : Int) ∣ n) → limitHosts rand (.int n) hosts = []) ∧
    (((hosts.length : Int) ∣ n) → (limitHosts rand (.int n) hosts).Perm hosts) := by
  have hlen : (2 : Int) ≤ (hosts.length : Int) := by exact_mod_cast h2
  have hguard : n ≠ 0 ∧ n < (hosts.length : Int) := ⟨by omega, by omega⟩
  have hlim : limitHosts rand (.int n) hosts = shuffle rand hosts n := by
    show (if n ≠ 0 ∧ n < (hosts.length : Int) then shuffle rand hosts n else hosts)
      = shuffle rand hosts n
    rw [if_pos hguard]
  have hmin : min n (hosts.length : Int) = n := min_eq_left (by omega)
  have hlenne : (hosts.length != 0) = true := by simpa using (by omega : hosts.length ≠ 0)
  constructor
  · intro hnd
    have hmodne : (n % (hosts.length : Int) == 0) = false := by
      simpa using fun h => hnd (Int.dvd_of_emod_eq_zero h)
    rw [hlim]
    simp only [shuffle, hmin, hmodne, Bool.and_false, Bool.false_eq_true, if_false]
    apply List.drop_eq_nil_of_le
    rw [shuffleLoop_length]
    omega
  · intro hd
    have hmod : (n % (hosts.length : Int) == 0) = true := by
      simpa using Int.emod_eq_zero_of_dvd hd
    rw [hlim]
    simp only [shuffle, hmin, hmod, hlenne, Bool.and_self, if_true]
    exact shuffleLoop_perm rand hosts _ _

/-! ## Claims C3 and C6 -/

/-- C3 counterexample: a TXT lookup failure carrying NO error code — which is
neither a "no data" nor a "domain not found" condition — is absorbed and the
resolution proceeds with zero TXT records instead of propagating a hard error,
refuting "any other TXT lookup failure propagates". -/
theorem c3_counterexample :
    resolveDnsTxtRecord ⟨fun _ => .ok [], fun _ => .error ⟨none⟩⟩ "server.example.com"
      = .ok [] ∧
    txtErrorPropagates ⟨none⟩ = false :=
  ⟨rfl, rfl⟩

/-- C3 (amended): a TXT lookup failure whose error code is `ENODATA` or
`ENOTFOUND`, or which carries no (or an empty) code, is absorbed and the
resolution proceeds as if zero TXT records were returned; only a failure with
any other nonempty code propagates as a hard error — `txtErrorPropagates`
holds exactly for those. -/
theorem c3_amended_txt_error_absorption (dns : DnsApi) (address : String) (e : DnsError)
    (herr : dns.resolveTxt address = .error e) :
    (txtErrorPropagates e = false → resolveDnsTxtRecord dns address = processTxtRecords none) ∧
    (txtErrorPropagates e = true → resolveDnsTxtRecord dns address = .error (.dnsError e)) ∧
    processTxtRecords none = .ok [] ∧
    (txtErrorPropagates e = true ↔
      ∃ c, e.code = some c ∧ c ≠ "" ∧ c ≠ "ENODATA" ∧ c ≠ "ENOTFOUND") := by
  have hstep : resolveDnsTxtRecord dns address
      = if txtErrorPropagates e then .error (.dnsError e) else processTxtRecords none := by
    unfold resolveDnsTxtRecord
    rw [herr]
  refine ⟨?_, ?_, rfl, ?_⟩
  · intro hf
    rw [hstep, hf]
    simp
  · intro ht
    rw [hstep, ht]
    simp
  · obtain ⟨code⟩ := e
    cases code with
    | none => simp [txtErrorPropagates]
    | some c =>
      simp only [txtErrorPropagates, Bool.and_eq_true, bne_iff_ne, ne_eq,
        Option.some.injEq]
      constructor
      · rintro ⟨h1, h2, h3⟩
        exact ⟨c, rfl, h1, h2, h3⟩
      · rintro ⟨c2, rfl, h1, h2, h3⟩
        exact ⟨h1, h2, h3⟩

theorem c3_witness :
    resolveDnsTxtRecord ⟨fun _ => .ok [], fun _ => .error ⟨some "ESERVFAIL"⟩⟩ "host.example.com"
      = .error (.dnsError ⟨some "ESERVFAIL"⟩) :=
  (c3_amended_txt_error_absorption ⟨fun _ => .ok [], fun _ => .error ⟨some "ESERVFAIL"⟩⟩
    "host.example.com" ⟨some "ESERVFAIL"⟩ rfl).2.1 (by decide)

/-- C6 counterexample: the parsed TXT option string `authSource=a&authSource=`
carries the allow-listed key `authSource` with an empty-string value (its
second occurrence), yet validation succeeds and returns the option set — the
code inspects only the FIRST value of each key — refuting the claim that any
allow-listed key present with an empty-string value is a hard error. -/
theorem c6_counterexample :
    processTxtRecords (some [["authSource=a&authSource="]])
      = .ok [("authSource", "a"), ("authSource", "")] := rfl

/-- C6 (amended): any parsed key outside the allow-list is a hard error; an
allow-listed key whose FIRST parsed value is the empty string is a hard error;
a `loadBalanced` whose FIRST value is anything but `"true"`/`"false"` is a
hard error; otherwise the option set is returned unchanged. -/
theorem c6_amended_txt_validation (opts : List (String × String)) :
    (((opts.map Prod.fst).any (fun key => !(ALLOWED_TXT_OPTIONS.contains key))) = true →
      validateTxtOptions opts = .error (.mongoParseError
        "Text record must only set authSource, replicaSet, loadBalanced")) ∧
    (((opts.map Prod.fst).any (fun key => !(ALLOWED_TXT_OPTIONS.contains key))) = false →
      (getParam opts "authSource" = some "" ∨ getParam opts "replicaSet" = some ""
        ∨ getParam opts "loadBalanced" = some "") →
      validateTxtOptions opts = .error (.mongoParseError
        "Cannot have empty URI params in DNS TXT Record")) ∧
    (∀ v : String,
      ((opts.map Prod.fst).any (fun key => !(ALLOWED_TXT_OPTIONS.contains key))) = false →
      ¬ (getParam opts "authSource" = some "" ∨ getParam opts "replicaSet" = some ""
        ∨ getParam opts "loadBalanced" = some "") →
      getParam opts "loadBalanced" = some v → v ≠ "true" → v ≠ "false" →
      validateTxtOptions opts = .error (.mongoParseError
        ("DNS TXT Record contains invalid value " ++ v
          ++ " for loadBalanced option (allowed: true, false)"))) ∧
    (((opts.map Prod.fst).any (fun key => !(ALLOWED_TXT_OPTIONS.contains key))) = false →
      ¬ (getParam opts "authSource" = some "" ∨ getParam opts "replicaSet" = some ""
        ∨ getParam opts "loadBalanced" = some "") →
      (getParam opts "loadBalanced" = none ∨ getParam opts "loadBalanced" = some "true"
        ∨ getParam opts "loadBalanced" = some "false") →
      validateTxtOptions opts = .ok opts) := by
  refine ⟨?_, ?_, ?_, ?_⟩
  · intro h
    simp only [validateTxtOptions]
    rw [if_pos h]
    rfl
  · intro h1 h2
    simp only [validateTxtOptions]
    rw [if_neg (Bool.eq_false_iff.mp h1), if_pos h2]
  · intro v h1 h2 hv hvt hvf
    simp only [validateTxtOptions]
    rw [if_neg (Bool.eq_false_iff.mp h1), if_neg h2,
      if_pos ⟨by rw [hv]; simp, by rw [hv]; simp [hvt], by rw [hv]; simp [hvf]⟩, hv]
    rfl
  · intro h1 h2 h3
    simp only [validateTxtOptions]
    rw [if_neg (Bool.eq_false_iff.mp h1), if_neg h2, if_neg]
    rintro ⟨hn, ht, hf⟩
    rcases h3 with h | h | h
    · exact hn h
    · exact ht h
    · exact hf h

theorem c6_witness :
    validateTxtOptions [("loadBalanced", "bla")] = .error (.mongoParseError
      "DNS TXT Record contains invalid value bla for loadBalanced option (allowed: true, false)") :=
  (c6_amended_txt_validation [("loadBalanced", "bla")]).2.2.1 "bla"
    (by decide) (by decide) rfl (by decide) (by decide)

/-! ## Claims C7, C8 and C10 -/

/-- C7: any input beginning with `mongodb://` is returned unchanged,
byte-for-byte; the result does not depend on the DNS capability or the random
source (no lookups are consulted), and resolving a direct-form string twice
yields the same string both times. -/
theorem c7_passthrough (input : String) (parseUrl : String → Option URLModel)
    (dns dns2 : DnsApi) (rand rand2 : List Nat)
    (h : jsStartsWith input "mongodb://" = true) :
    resolveMongodbSrv input parseUrl dns rand = .ok input ∧
    resolveMongodbSrv input parseUrl dns2 rand2 = resolveMongodbSrv input parseUrl dns rand ∧
    (∀ out, resolveMongodbSrv input parseUrl dns rand = .ok out →
      resolveMongodbSrv out parseUrl dns rand = .ok out) := by
  have h1 : ∀ (d : DnsApi) (r : List Nat), resolveMongodbSrv input parseUrl d r = .ok input := by
    intro d r
    unfold resolveMongodbSrv
    rw [if_pos h]
  refine ⟨h1 dns rand, (h1 dns2 rand2).trans (h1 dns rand).symm, ?_⟩
  intro out hout
  obtain rfl : input = out := Except.ok.inj ((h1 dns rand).symm.trans hout)
  exact h1 dns rand

theorem c7_witness :
    resolveMongodbSrv "mongodb://somewhere.example.com" (fun _ => none)
      ⟨fun _ => .ok [], fun _ => .ok []⟩ [] = .ok "mongodb://somewhere.example.com" :=
  (c7_passthrough "mongodb://somewhere.example.com" (fun _ => none)
    ⟨fun _ => .ok [], fun _ => .ok []⟩ ⟨fun _ => .error ⟨none⟩, fun _ => .error ⟨none⟩⟩
    [] [7] (by decide)).1

/-- C8: a validated SRV target formats as bare `host` when its port is 27017
or absent (an absent port defaults to 27017), and as `host:port` for every
other port value. -/
theorem c8_port_formatting (name : String) (p : Nat) (hp : p ≠ 27017) :
    formatAddress ⟨name, none⟩ = name ∧
    formatAddress ⟨name, some 27017⟩ = name ∧
    formatAddress ⟨name, some p⟩ = name ++ ":" ++ toString p := by
  refine ⟨?_, ?_, ?_⟩
  · show name ++ (if (27017 : Nat) = 27017 then "" else _) = name
    rw [if_pos rfl, String.append_empty]
  · show name ++ (if (27017 : Nat) = 27017 then "" else _) = name
    rw [if_pos rfl, String.append_empty]
  · show name ++ (if p = 27017 then "" else ":" ++ toString p) = name ++ ":" ++ toString p
    rw [if_neg hp, String.append_assoc]

theorem c8_witness :
    formatAddress ⟨"asdf.example.com", none⟩ = "asdf.example.com" ∧
    formatAddress ⟨"asdf.example.com", some 27017⟩ = "asdf.example.com" ∧
    formatAddress ⟨"asdf.example.com", some 27018⟩ = "asdf.example.com" ++ ":" ++ toString 27018 :=
  c8_port_formatting "asdf.example.com" 27018 (by decide)

/-- C10: when the URL's `srvMaxHosts` query option is a non-numeric string,
its coercion is NaN, which is falsy like `0`, so resolution does not fail on
that option: host limiting is skipped — all SRV hosts appear, formatted in
resolver order — and `srvMaxHosts` is still stripped from the output query. -/
theorem c10_nan_srv_max_hosts (dns : DnsApi) (rand : List Nat) (url : URLModel)
    (s : String) (hs : getParam url.searchParams "srvMaxHosts" = some s)
    (hnan : jsStringToNum s = .nan)
    (hport : url.port = "")
    (addrs : List Address)
    (hsrv : dns.resolveSrv ("_" ++ jsOrDefault (getParam url.searchParams "srvServiceName")
      "mongodb" ++ "._tcp." ++ url.hostname) = .ok addrs)
    (hne : addrs ≠ [])
    (hmatch : addrs.all (fun r => matchesParentDomain r.name url.hostname) = true)
    (txt : List (String × String))
    (htxt : resolveDnsTxtRecord dns url.hostname = .ok txt) :
    resolveSrvUrl dns rand url = .ok (addrs.map formatAddress, finalizeUrl url txt) ∧
    hasKey (finalizeUrl url txt).searchParams "srvMaxHosts" = false := by
  have hsne : s ≠ "" := by
    intro he
    rw [he] at hnan
    exact absurd hnan (by decide)
  have hdef : jsOrDefault (getParam url.searchParams "srvMaxHosts") "0" = s := by
    rw [hs]
    simp [jsOrDefault, hsne]
  have hsrvrec : resolveDnsSrvRecord dns url.hostname
      (jsOrDefault (getParam url.searchParams "srvServiceName") "mongodb")
      = .ok (addrs.map formatAddress) := by
    unfold resolveDnsSrvRecord
    rw [hsrv]
    exact validateSrvAddresses_ok_of addrs url.hostname hne hmatch
  constructor
  · simp only [resolveSrvUrl]
    rw [if_neg (not_ne_iff.mpr hport), hdef, hnan, hsrvrec, htxt]
    rfl
  · rw [finalizeUrl_searchParams]
    unfold hasKey
    rw [getParam_deleteParam_self]
    rfl

theorem c10_witness :
    resolveSrvUrl
      ⟨fun _ => .ok [⟨"asdf.example.com", some 27017⟩, ⟨"meow.example.com", some 27017⟩],
       fun _ => .ok []⟩ []
      { protocol := "mongodb+srv:", username := "", password := "", port := "",
        hostname := "server.example.com", pathname := "",
        searchParams := [("srvMaxHosts", "banana")] }
      = .ok (["asdf.example.com", "meow.example.com"],
        { protocol := "mongodb:", username := "", password := "", port := "",
          hostname := "__DUMMY_HOSTNAME__", pathname := "/",
          searchParams := [("tls", "true")] }) ∧
    hasKey ({ protocol := "mongodb:", username := "", password := "", port := "",
              hostname := "__DUMMY_HOSTNAME__", pathname := "/",
              searchParams := [("tls", "true")] } : URLModel).searchParams "srvMaxHosts" = false :=
  c10_nan_srv_max_hosts
    ⟨fun _ => .ok [⟨"asdf.example.com", some 27017⟩, ⟨"meow.example.com", some 27017⟩],
     fun _ => .ok []⟩ []
    { protocol := "mongodb+srv:", username := "", password := "", port := "",
      hostname := "server.example.com", pathname := "",
      searchParams := [("srvMaxHosts", "banana")] }
    "banana" rfl (by decide) rfl
    [⟨"asdf.example.com", some 27017⟩, ⟨"meow.example.com", some 27017⟩]
    rfl (by decide) (by decide) [] rfl

theorem c9_witness :
    limitHosts [0] (.int (-1)) ["a", "b", "c"] = [] ∧
    (limitHosts [0, 0] (.int (-2)) ["a", "b"]).Perm ["a", "b"] :=
  ⟨(c9_amended_negative_srv_max_hosts [0] ["a", "b", "c"] (-1)
      (by decide) (by decide)).1 (by decide),
   (c9_amended_negative_srv_max_hosts [0, 0] ["a", "b"] (-2)
      (by decide) (by decide)).2 (by decide)⟩
